import Mathlib

/-!
A verification development for the WFC3 IR detector simulator
(detector.py and tools.py).  Python 2 semantics are embedded shallowly:
machine integers become ℤ (Python 2 `/` on ints is floor division,
embedded as Int.fdiv), floats holding exact tabular values become ℚ,
fallible code returns Except.  Numpy arrays are embedded as grids with
explicit shape information.
-/

/-- The exceptions the embedded code can raise.  `sampleModeError` embeds
the WFC3SimSampleModeError raised by the detector, `valueError` the numpy
ValueError raised by a failed broadcast assignment, and
`zeroDivisionError` the Python ZeroDivisionError. -/
inductive PyError where
  | sampleModeError
  | valueError
  | zeroDivisionError
deriving DecidableEq

/-- One row of the mode timing table `wfc3_ir_mode_exptime.csv`
(pandas DataFrame row): SUBARRAY, SAMPSEQ, NSAMP and TIME columns. -/
structure ModeRow where
  SUBARRAY : ℤ
  SAMPSEQ : String
  NSAMP : ℤ
  TIME : ℚ
deriving DecidableEq

/-- The boolean row mask used by `WFC3_IR.exptime` (detector.py line 52):
exact match on all three keys. -/
def exptimeMask (SAMPSEQ : String) (NSAMP SUBARRAY : ℤ) (r : ModeRow) : Bool :=
  (r.SAMPSEQ == SAMPSEQ) && (r.NSAMP == NSAMP) && (r.SUBARRAY == SUBARRAY)

/-- Embeds `WFC3_IR.exptime` (detector.py lines 35-59).  The pandas `.ix`
boolean mask keeps the rows matching all three keys in table order; if the
selection is empty a WFC3SimSampleModeError is raised, otherwise
`.TIME.values[0]`, the TIME value of the first selected row, is returned. -/
def exptime (mt : List ModeRow) (NSAMP SUBARRAY : ℤ) (SAMPSEQ : String) :
    Except PyError ℚ :=
  match mt.filter (exptimeMask SAMPSEQ NSAMP SUBARRAY) with
  | [] => .error .sampleModeError
  | r :: _ => .ok r.TIME

/-- The boolean row mask used by `WFC3_IR.get_read_times`
(detector.py line 116): exact match on SAMPSEQ and SUBARRAY, and
`NSAMP <=` the requested sample count. -/
def readTimesMask (SAMPSEQ : String) (NSAMP SUBARRAY : ℤ) (r : ModeRow) : Bool :=
  (r.SAMPSEQ == SAMPSEQ) && (decide (r.NSAMP ≤ NSAMP)) && (r.SUBARRAY == SUBARRAY)

/-- Embeds `WFC3_IR.get_read_times` (detector.py lines 96-122).  After the
range check on NSAMP, the TIME column of the rows selected by the mask is
returned in table row order (no sorting is performed by the source). -/
def getReadTimes (mt : List ModeRow) (NSAMP SUBARRAY : ℤ) (SAMPSEQ : String) :
    Except PyError (List ℚ) :=
  if ¬ (1 ≤ NSAMP ∧ NSAMP ≤ 15) then .error .sampleModeError
  else
    match (mt.filter (readTimesMask SAMPSEQ NSAMP SUBARRAY)).map ModeRow.TIME with
    | [] => .error .sampleModeError
    | t :: ts => .ok (t :: ts)

/-- Embeds `WFC3_IR.num_exp_per_buffer` (detector.py lines 137-163) under
Python 2 integer semantics: `/` on ints is floor division (Int.fdiv), and
a zero divisor raises ZeroDivisionError.  `np.floor` on the already
floor-divided integer quotient is the identity. -/
def numExpPerBuffer (NSAMP SUBARRAY : ℤ) : Except PyError ℤ :=
  let hard_limit : ℤ := 304
  let headers_per_exp : ℤ := NSAMP + 1
  if SUBARRAY = 0 then .error .zeroDivisionError
  else
    let total_allowed_reads : ℤ := 2 * 16 * (Int.fdiv 1024 SUBARRAY)
    let capped : ℤ :=
      if total_allowed_reads > hard_limit then hard_limit else total_allowed_reads
    if headers_per_exp = 0 then .error .zeroDivisionError
    else .ok (Int.fdiv capped headers_per_exp)

/-- A mode timing table whose rows are not ordered by NSAMP: the NSAMP=2
row precedes the NSAMP=1 row for the same (SAMPSEQ, SUBARRAY) pair. -/
def mtUnordered : List ModeRow :=
  [⟨256, "RAPID", 2, 20⟩, ⟨256, "RAPID", 1, 10⟩]

/-- C1: with a source table whose matching rows are not in increasing
sample order, `get_read_times(2, 256, RAPID)` returns the TIME column in
table row order, [20, 10]: the result is not non-decreasing and its last
element 10 differs from `exptime(2, 256, RAPID) = 20`.  The source never
sorts, so the claimed order-independence fails. -/
theorem c1_read_times_not_sorted :
    getReadTimes mtUnordered 2 256 "RAPID" = .ok [20, 10] ∧
    exptime mtUnordered 2 256 "RAPID" = .ok 20 ∧
    ¬ List.Chain' (fun a b : ℚ => a ≤ b) [20, 10] := by
  refine ⟨rfl, rfl, ?_⟩
  norm_num [List.chain'_cons, List.chain'_singleton]

/-- C9: `num_exp_per_buffer` performs no input validation.  At the
non-positive sample count 0 with subarray 1024 it does not fail at all:
it returns 32 normally, where the claim requires an InvalidModeError. -/
theorem c9_no_validation : numExpPerBuffer 0 1024 = .ok 32 := rfl

/-- C4: for every positive sample count and subarray in
{64, 128, 256, 512, 1024}, `num_exp_per_buffer` returns
floor(min(304, 2*16*(1024/subarray)) / (sample_count + 1)); in
particular it returns 2 at (15, 1024) and 64 at (1, 256). -/
theorem c4_num_exp_per_buffer :
    (∀ n sub : ℤ, 1 ≤ n → sub ∈ ([64, 128, 256, 512, 1024] : List ℤ) →
      numExpPerBuffer n sub =
        .ok (Int.fdiv (min 304 (2 * 16 * (Int.fdiv 1024 sub))) (n + 1))) ∧
    numExpPerBuffer 15 1024 = .ok 2 ∧ numExpPerBuffer 1 256 = .ok 64 := by
  refine ⟨?_, rfl, rfl⟩
  intro n sub hn hsub
  have hne : n + 1 ≠ 0 := by omega
  fin_cases hsub <;>
    simp only [numExpPerBuffer] <;>
    norm_num [hne, min_def,
      show Int.fdiv (1024 : ℤ) 64 = 16 from rfl,
      show Int.fdiv (1024 : ℤ) 128 = 8 from rfl,
      show Int.fdiv (1024 : ℤ) 256 = 4 from rfl,
      show Int.fdiv (1024 : ℤ) 512 = 2 from rfl,
      show Int.fdiv (1024 : ℤ) 1024 = 1 from rfl]

/-- Witness for C4 at sample count 3, subarray 512. -/
theorem c4_num_exp_per_buffer_witness :
    (1 : ℤ) ≤ 3 ∧ numExpPerBuffer 3 512 = .ok 16 := by
  refine ⟨by norm_num, ?_⟩
  have h := c4_num_exp_per_buffer.1 3 512 (by norm_num) (by norm_num)
  exact h.trans (by rfl)

/-- C5: `exptime` is an exact-match lookup: given that the table is
uniquely keyed by (SAMPSEQ, NSAMP, SUBARRAY), every present combination
returns exactly the TIME value stored in its matching row, and every
absent combination raises the mode error. -/
theorem c5_exptime_lookup (mt : List ModeRow) (n sub : ℤ) (seq : String)
    (huniq : ∀ r ∈ mt, ∀ s ∈ mt,
      r.SAMPSEQ = s.SAMPSEQ → r.NSAMP = s.NSAMP → r.SUBARRAY = s.SUBARRAY → r = s) :
    (∀ r ∈ mt, r.SAMPSEQ = seq → r.NSAMP = n → r.SUBARRAY = sub →
      exptime mt n sub seq = .ok r.TIME) ∧
    ((∀ r ∈ mt, ¬ (r.SAMPSEQ = seq ∧ r.NSAMP = n ∧ r.SUBARRAY = sub)) →
      exptime mt n sub seq = .error .sampleModeError) := by
  constructor
  · intro r hr h1 h2 h3
    have hrmask : exptimeMask seq n sub r = true := by
      simp [exptimeMask, h1, h2, h3]
    have hrfil : r ∈ mt.filter (exptimeMask seq n sub) :=
      List.mem_filter.mpr ⟨hr, hrmask⟩
    unfold exptime
    cases hfe : mt.filter (exptimeMask seq n sub) with
    | nil => rw [hfe] at hrfil; cases hrfil
    | cons a t =>
      have hafil : a ∈ mt.filter (exptimeMask seq n sub) := by
        rw [hfe]; exact List.mem_cons_self a t
      obtain ⟨ham, hamask⟩ := List.mem_filter.mp hafil
      simp only [exptimeMask, Bool.and_eq_true, beq_iff_eq, decide_eq_true_eq]
        at hamask
      have : a = r := huniq a ham r hr (hamask.1.1.trans h1.symm)
        (hamask.1.2.trans h2.symm) (hamask.2.trans h3.symm)
      rw [this]
  · intro habs
    have hfe : mt.filter (exptimeMask seq n sub) = [] := by
      refine List.filter_eq_nil_iff.mpr ?_
      intro r hr
      have := habs r hr
      simp only [exptimeMask, Bool.and_eq_true, beq_iff_eq, decide_eq_true_eq]
      tauto
    unfold exptime
    rw [hfe]

/-- A one-row, uniquely keyed mode timing table. -/
def mtOneRow : List ModeRow := [⟨256, "RAPID", 1, 10⟩]

/-- Witness for C5 on the one-row table: the present combination
(RAPID, 1, 256) returns the stored TIME 10 and the absent combination
(RAPID, 2, 256) raises the mode error. -/
theorem c5_exptime_lookup_witness :
    exptime mtOneRow 1 256 "RAPID" = .ok 10 ∧
    exptime mtOneRow 2 256 "RAPID" = .error .sampleModeError := by
  have h1 := c5_exptime_lookup mtOneRow 1 256 "RAPID" (by decide)
  have h2 := c5_exptime_lookup mtOneRow 2 256 "RAPID" (by decide)
  refine ⟨h1.1 ⟨256, "RAPID", 1, 10⟩ (by decide) rfl rfl rfl, h2.2 ?_⟩
  decide

/-- A 2-dimensional numpy array: a shape together with a total value
function (reads outside the shape never occur in the embedded code). -/
structure Grid where
  rows : ℕ
  cols : ℕ
  val : ℕ → ℕ → ℚ

/-- Embeds the numpy basic slice `g[a:b, a:b]` for non-negative bounds:
both bounds are clamped to the array extent and the result is empty when
the clamped stop does not exceed the clamped start. -/
def npSlice (g : Grid) (a b : ℕ) : Grid where
  rows := min b g.rows - min a g.rows
  cols := min b g.cols - min a g.cols
  val := fun i j => g.val (min a g.rows + i) (min a g.cols + j)

/-- The four coefficient extensions of a non-linearity calibration
reference file (extensions 1 to 4 of the fits file). -/
structure CoeffRef where
  c1 : Grid
  c2 : Grid
  c3 : Grid
  c4 : Grid

/-- Embeds the cropping step of `make_nonlinear` (tools.py lines 165-172):
`crop1 = len(f[1].data)/2 - len(frame)/2`,
`crop2 = len(f[1].data)/2 + len(frame)/2`, Python 2 floor division, and
each of the four coefficient grids is sliced to `[crop1:crop2, crop1:crop2]`.
The ℕ subtraction in crop1 agrees with the Python value whenever the
reference is at least as large as the frame, which every claim assumes. -/
def cropCoeffs (ref : CoeffRef) (frameLen : ℕ) : CoeffRef :=
  let crop1 := ref.c1.rows / 2 - frameLen / 2
  let crop2 := ref.c1.rows / 2 + frameLen / 2
  ⟨npSlice ref.c1 crop1 crop2, npSlice ref.c2 crop1 crop2,
   npSlice ref.c3 crop1 crop2, npSlice ref.c4 crop1 crop2⟩

/-- A 5x5 calibration reference (all four grids 5x5). -/
def refFive : CoeffRef :=
  ⟨⟨5, 5, fun _ _ => 0⟩, ⟨5, 5, fun _ _ => 0⟩,
   ⟨5, 5, fun _ _ => 0⟩, ⟨5, 5, fun _ _ => 0⟩⟩

/-- C2 counterexample: for a square frame of odd size 3 and a 5x5
reference (at least as large as the frame), the crop window is
[1:3, 1:3], so the cropped grid is 2x2 and does not have the frame
shape 3x3: the claimed shape identity fails for odd frame sizes. -/
theorem c2_odd_frame_crop_mismatch :
    (cropCoeffs refFive 3).c1.rows = 2 ∧ (2 : ℕ) ≠ 3 := by
  exact ⟨rfl, by decide⟩

/-- Shape and content of an in-range numpy slice. -/
theorem npSlice_of_le (g : Grid) (a b : ℕ) (har : a ≤ g.rows) (hbr : b ≤ g.rows)
    (hac : a ≤ g.cols) (hbc : b ≤ g.cols) :
    (npSlice g a b).rows = b - a ∧ (npSlice g a b).cols = b - a ∧
    ∀ i j, (npSlice g a b).val i j = g.val (a + i) (a + j) := by
  refine ⟨?_, ?_, ?_⟩ <;>
    simp [npSlice, Nat.min_eq_left har, Nat.min_eq_left hbr,
      Nat.min_eq_left hac, Nat.min_eq_left hbc]

/-- C2 amended: for a square frame of even size and a square calibration
reference at least as large, the crop window runs from
start = reference_size/2 − frame_size/2 to end = start + frame_size on
both axes, and all four cropped coefficient grids have exactly the frame
shape, with values taken from the centered window. -/
theorem c2_even_frame_crop (R nf : ℕ) (hEven : nf % 2 = 0) (hle : nf ≤ R)
    (ref : CoeffRef)
    (h1r : ref.c1.rows = R) (h1c : ref.c1.cols = R)
    (h2r : ref.c2.rows = R) (h2c : ref.c2.cols = R)
    (h3r : ref.c3.rows = R) (h3c : ref.c3.cols = R)
    (h4r : ref.c4.rows = R) (h4c : ref.c4.cols = R) :
    R / 2 + nf / 2 = (R / 2 - nf / 2) + nf ∧
    ((cropCoeffs ref nf).c1.rows = nf ∧ (cropCoeffs ref nf).c1.cols = nf) ∧
    ((cropCoeffs ref nf).c2.rows = nf ∧ (cropCoeffs ref nf).c2.cols = nf) ∧
    ((cropCoeffs ref nf).c3.rows = nf ∧ (cropCoeffs ref nf).c3.cols = nf) ∧
    ((cropCoeffs ref nf).c4.rows = nf ∧ (cropCoeffs ref nf).c4.cols = nf) ∧
    (∀ i j, (cropCoeffs ref nf).c1.val i j =
      ref.c1.val ((R / 2 - nf / 2) + i) ((R / 2 - nf / 2) + j)) := by
  have ha : R / 2 - nf / 2 ≤ R := by omega
  have hb : R / 2 + nf / 2 ≤ R := by omega
  have hwin : R / 2 + nf / 2 - (R / 2 - nf / 2) = nf := by omega
  have hs1 := npSlice_of_le ref.c1 (R / 2 - nf / 2) (R / 2 + nf / 2)
    (h1r ▸ ha) (h1r ▸ hb) (h1c ▸ ha) (h1c ▸ hb)
  have hs2 := npSlice_of_le ref.c2 (R / 2 - nf / 2) (R / 2 + nf / 2)
    (h2r ▸ ha) (h2r ▸ hb) (h2c ▸ ha) (h2c ▸ hb)
  have hs3 := npSlice_of_le ref.c3 (R / 2 - nf / 2) (R / 2 + nf / 2)
    (h3r ▸ ha) (h3r ▸ hb) (h3c ▸ ha) (h3c ▸ hb)
  have hs4 := npSlice_of_le ref.c4 (R / 2 - nf / 2) (R / 2 + nf / 2)
    (h4r ▸ ha) (h4r ▸ hb) (h4c ▸ ha) (h4c ▸ hb)
  simp only [cropCoeffs, h1r] at hs1 hs2 hs3 hs4 ⊢
  exact ⟨by omega,
    ⟨hs1.1.trans hwin, hs1.2.1.trans hwin⟩,
    ⟨hs2.1.trans hwin, hs2.2.1.trans hwin⟩,
    ⟨hs3.1.trans hwin, hs3.2.1.trans hwin⟩,
    ⟨hs4.1.trans hwin, hs4.2.1.trans hwin⟩,
    hs1.2.2⟩

/-- A 6x6 calibration reference (all four grids 6x6). -/
def refSix : CoeffRef :=
  ⟨⟨6, 6, fun _ _ => 1⟩, ⟨6, 6, fun _ _ => 2⟩,
   ⟨6, 6, fun _ _ => 3⟩, ⟨6, 6, fun _ _ => 4⟩⟩

/-- Witness for C2 amended at an even 2x2 frame and a 6x6 reference. -/
theorem c2_even_frame_crop_witness :
    (2 : ℕ) % 2 = 0 ∧ 2 ≤ 6 ∧
    ((cropCoeffs refSix 2).c1.rows = 2 ∧ (cropCoeffs refSix 2).c4.cols = 2) := by
  have h := c2_even_frame_crop 6 2 (by decide) (by decide) refSix
    rfl rfl rfl rfl rfl rfl rfl rfl
  exact ⟨by decide, by decide, h.2.1.1, h.2.2.2.2.1.2⟩

/-- Embeds `WFC3_IR.add_bias_pixels` (detector.py lines 78-94):
`full_array = np.zeros((1024, 1024)); full_array[5:-5, 5:-5] = pixel_array`.
The source performs no shape check of its own: the slice assignment to the
1014x1014 central region follows the numpy broadcasting rule for a
2-dimensional source, which succeeds exactly when each source dimension is
1014 or 1 (a length-1 dimension is replicated) and otherwise raises a
numpy ValueError. -/
def addBiasPixels (p : Grid) : Except PyError Grid :=
  if (p.rows = 1014 ∨ p.rows = 1) ∧ (p.cols = 1014 ∨ p.cols = 1) then
    .ok { rows := 1024, cols := 1024,
          val := fun i j =>
            if 5 ≤ i ∧ i < 1019 ∧ 5 ≤ j ∧ j < 1019 then
              p.val (if p.rows = 1 then 0 else i - 5)
                    (if p.cols = 1 then 0 else j - 5)
            else 0 }
  else .error .valueError

/-- A 1x1 array holding the single value 7. -/
def oneByOne : Grid := ⟨1, 1, fun _ _ => 7⟩

/-- Returns true on an ok result, false on an error. -/
def exceptIsOk {ε α : Type} : Except ε α → Bool
  | .ok _ => true
  | .error _ => false

/-- The pixel value at (i, j) of an ok result, 0 on an error. -/
def resultValAt (e : Except PyError Grid) (i j : ℕ) : ℚ :=
  match e with
  | .ok g => g.val i j
  | .error _ => 0

/-- C6 counterexample: a 1x1 input, whose shape is not 1014x1014, does not
raise any error: the slice assignment broadcasts it, the call succeeds and
the central region is filled with the replicated value 7. -/
theorem c6_broadcast_accepted :
    exceptIsOk (addBiasPixels oneByOne) = true ∧
    resultValAt (addBiasPixels oneByOne) 10 10 = 7 ∧
    oneByOne.rows ≠ 1014 := by
  exact ⟨rfl, rfl, by decide⟩

/-- C6 amended: for every 1014x1014 input, `add_bias_pixels` returns a
1024x1024 grid whose central 1014x1014 region equals the input exactly and
whose 5 pixel border is all zero; a 2-dimensional input raises an error
exactly when its shape cannot be broadcast to 1014x1014 (each dimension
must be 1014 or 1), so a 1013x1013 input raises while, for example, a
1x1 input is accepted with its value replicated. -/
theorem c6_embed_in_full_frame :
    (∀ p : Grid, p.rows = 1014 → p.cols = 1014 →
      ∃ g : Grid, addBiasPixels p = .ok g ∧ g.rows = 1024 ∧ g.cols = 1024 ∧
        (∀ i j, i < 1014 → j < 1014 → g.val (i + 5) (j + 5) = p.val i j) ∧
        (∀ i j, i < 5 ∨ 1019 ≤ i ∨ j < 5 ∨ 1019 ≤ j → g.val i j = 0)) ∧
    (∀ p : Grid, addBiasPixels p = .error .valueError ↔
      ¬ ((p.rows = 1014 ∨ p.rows = 1) ∧ (p.cols = 1014 ∨ p.cols = 1))) := by
  constructor
  · intro p h1 h2
    rw [addBiasPixels, if_pos ⟨Or.inl h1, Or.inl h2⟩]
    refine ⟨_, rfl, rfl, rfl, ?_, ?_⟩
    · intro i j hi hj
      dsimp only
      rw [if_pos (by omega), if_neg (by omega : ¬ p.rows = 1),
        if_neg (by omega : ¬ p.cols = 1)]
      have hii : i + 5 - 5 = i := by omega
      have hjj : j + 5 - 5 = j := by omega
      rw [hii, hjj]
    · intro i j hborder
      dsimp only
      rw [if_neg (by omega)]
  · intro p
    by_cases hc : (p.rows = 1014 ∨ p.rows = 1) ∧ (p.cols = 1014 ∨ p.cols = 1) <;>
      simp [addBiasPixels, hc]

/-- A 1014x1014 array holding the constant 3. -/
def gLight : Grid := ⟨1014, 1014, fun _ _ => 3⟩

/-- Witness for C6 amended at a concrete 1014x1014 input. -/
theorem c6_embed_in_full_frame_witness :
    gLight.rows = 1014 ∧
    (∃ g : Grid, addBiasPixels gLight = .ok g ∧ g.rows = 1024 ∧ g.cols = 1024 ∧
      (∀ i j, i < 1014 → j < 1014 → g.val (i + 5) (j + 5) = gLight.val i j) ∧
      (∀ i j, i < 5 ∨ 1019 ≤ i ∨ j < 5 ∨ 1019 ≤ j → g.val i j = 0)) := by
  exact ⟨rfl, c6_embed_in_full_frame.1 gLight rfl rfl⟩

/-- An array store: numpy array objects are store cells, an array
reference is an index into the store.  Models object identity for the
frame-effect claim about `add_bias_pixels`. -/
abbrev Store : Type := List Grid

/-- The empty grid used as the default of an out-of-range store read. -/
def defaultGrid : Grid := ⟨0, 0, fun _ _ => 0⟩

/-- Embeds `WFC3_IR.add_bias_pixels` (detector.py lines 78-94) with
explicit array-object state: `np.zeros((1024, 1024))` allocates a fresh
zero array at the next free store index, the slice assignment
`full_array[5:-5, 5:-5] = pixel_array` overwrites that fresh cell in
place reading from the input cell, and the reference to the fresh cell is
returned.  The input here is a 1014x1014 array reference, the case the
frame-effect claim quantifies over. -/
def addBiasPixelsST (sto : Store) (r : ℕ) : Store × ℕ :=
  let input := sto.getD r defaultGrid
  let ref := sto.length
  let sto1 := sto ++ [⟨1024, 1024, fun _ _ => 0⟩]
  let assigned : Grid :=
    ⟨1024, 1024, fun i j =>
      if 5 ≤ i ∧ i < 1019 ∧ 5 ≤ j ∧ j < 1019 then input.val (i - 5) (j - 5)
      else 0⟩
  let sto2 := sto1.set ref assigned
  (sto2, ref)

/-- C10: `add_bias_pixels` allocates and returns a fresh array and never
mutates its input: the returned reference differs from the input
reference and from every previously allocated reference, and every
previously allocated array, the input included, holds exactly the same
values after the call. -/
theorem c10_add_bias_pixels_fresh (sto : Store) (r : ℕ) (hr : r < sto.length) :
    (addBiasPixelsST sto r).2 ≠ r ∧
    sto.length ≤ (addBiasPixelsST sto r).2 ∧
    ∀ i, i < sto.length → (addBiasPixelsST sto r).1.get? i = sto.get? i := by
  refine ⟨by simp [addBiasPixelsST]; omega, by simp [addBiasPixelsST], ?_⟩
  intro i hi
  show (List.set (sto ++ [_]) sto.length _).get? i = sto.get? i
  rw [List.get?_set_ne _ _ (by omega)]
  exact List.get?_append hi

/-- Witness for C10 on a one-element store. -/
theorem c10_add_bias_pixels_fresh_witness :
    0 < ([gLight] : Store).length ∧
    ((addBiasPixelsST [gLight] 0).2 ≠ 0 ∧
     ([gLight] : Store).length ≤ (addBiasPixelsST [gLight] 0).2 ∧
     ∀ i, i < ([gLight] : Store).length →
       (addBiasPixelsST [gLight] 0).1.get? i = ([gLight] : Store).get? i) := by
  exact ⟨by decide, c10_add_bias_pixels_fresh [gLight] 0 (by decide)⟩

/-- Embeds the 15-character zero-padded binary string that
`WFC3IR_DQFlags.__init__` (tools.py lines 260-269) stores in
`self.binary`, as the list of its 15 digits: position 0 is the most
significant bit (value 16384) and position 14 the least significant.
Faithful to the Python format for every flag below 2^15, the range of a
15-bit data quality flag. -/
def toBinary15 (flag : ℕ) : List ℕ :=
  (List.range 15).map (fun i => flag / 2 ^ (14 - i) % 2)

/-- The flag taxonomy set by `WFC3IR_DQFlags._flagList`
(tools.py lines 423-444): position, short name, description. -/
def flagTaxonomy : List (ℕ × String × String) :=
  [(0, "ghost", "ghost/crosstalk"),
   (1, "cosmic-calwf3", "cosmic ray (calwf3 up-the-ramp fitting)"),
   (2, "cosmic-drizzle", "cosmic ray (MultiDrizzle)"),
   (3, "zero-signal", "Signal in zero-read"),
   (4, "reserved", "(Reserved)"),
   (5, "badflat", "Bad or uncertain flat value"),
   (6, "saturated", "Full-well saturation"),
   (7, "badref", "Bad reference pixel"),
   (8, "warm", "Warm pixel"),
   (9, "unstable", "Unstable response"),
   (10, "hot", "Hot pixel"),
   (11, "deviantzero", "Deviant zero-read (bias) value"),
   (12, "badpix", "Bad detector pixel"),
   (13, "filled", "Data missing and replaced by fill value"),
   (14, "reedsolomon", "Reed-Solomon decoding error")]

/-- Embeds `WFC3IR_DQFlags.problems` (tools.py lines 381-392): walk the
enumerated binary digits and, for every digit equal to 1, append the short
name stored at that position of the taxonomy. -/
def problems (flag : ℕ) : List String :=
  (toBinary15 flag).enum.filterMap
    (fun p => if p.2 = 1 then (flagTaxonomy.get? p.1).map (fun t => t.2.1) else none)

/-- Embeds `WFC3IR_DQFlags.isGhost` (tools.py lines 375-379): tests
character 0 of the binary string. -/
def isGhost (flag : ℕ) : Bool :=
  (toBinary15 flag).getD 0 0 == 1

/-- Embeds `WFC3IR_DQFlags.isCosmic` (tools.py lines 354-361): true when
character 2 or character 1 of the binary string is 1. -/
def isCosmic (flag : ℕ) : Bool :=
  ((toBinary15 flag).getD 2 0 == 1) || ((toBinary15 flag).getD 1 0 == 1)

/-- The specification-side reading of `problems`: the short names of the
set bits of the 15-bit value, in position order 0..14, where position i
holds bit 14 - i of the integer. -/
def problemsSpec (flag : ℕ) : List String :=
  ((List.range 15).filter (fun i => Nat.testBit flag (14 - i))).filterMap
    (fun i => (flagTaxonomy.get? i).map (fun t => t.2.1))

theorem list_zip_self {α : Type} (l : List α) :
    l.zip l = l.map (fun a => (a, a)) := by
  induction l with
  | nil => rfl
  | cons a t ih => simp [ih]

theorem filterMap_ite_of_filter {α β : Type} (f : α → Option β) (p : α → Bool)
    (q : α → Prop) [DecidablePred q] (hpq : ∀ i, p i = true ↔ q i)
    (l : List α) :
    (l.filter p).filterMap f = l.filterMap (fun i => if q i then f i else none) := by
  induction l with
  | nil => rfl
  | cons a t ih =>
    by_cases hqa : q a
    · rw [List.filter_cons_of_pos ((hpq a).mpr hqa), List.filterMap_cons,
        List.filterMap_cons, if_pos hqa, ih]
    · rw [List.filter_cons_of_neg (fun hpa => hqa ((hpq a).mp hpa)),
        List.filterMap_cons, if_neg hqa, ih]

/-- C7: for every 15-bit flag, `problems` returns exactly the short names
of the set bits, in position order 0..14 with position 0 the most
significant bit; the flag 0 reports no problems, and the flag 16384
reports exactly ghost, with `isGhost` true. -/
theorem c7_problems_decode :
    (∀ flag : ℕ, flag ≤ 32767 → problems flag = problemsSpec flag) ∧
    problems 0 = [] ∧ problems 16384 = ["ghost"] ∧ isGhost 16384 = true := by
  refine ⟨?_, by decide, by decide, by decide⟩
  intro flag _
  have henum : (toBinary15 flag).enum =
      (List.range 15).map (fun i => (i, flag / 2 ^ (14 - i) % 2)) := by
    rw [toBinary15, List.enum_map, List.enum_eq_zip_range,
      List.length_range, list_zip_self, List.map_map]
    rfl
  rw [problems, henum, List.filterMap_map, problemsSpec,
    filterMap_ite_of_filter _ _ (fun i => flag / 2 ^ (14 - i) % 2 = 1)
      (fun i => by rw [Nat.testBit_to_div_mod, decide_eq_true_eq])]
  rfl

/-- Witness for C7 at the flag 5 (bits 13 and 14 set). -/
theorem c7_problems_decode_witness :
    (5 : ℕ) ≤ 32767 ∧ problems 5 = problemsSpec 5 := by
  exact ⟨by decide, c7_problems_decode.1 5 (by decide)⟩

/-- C8: for every 15-bit flag, `isCosmic` is true exactly when bit
position 1 (integer bit 13, value 8192) or bit position 2 (integer bit
12, value 4096) is set; the flag with only bit position 1 set and the
flag with only bit position 2 set both report true. -/
theorem c8_is_cosmic :
    (∀ flag : ℕ, flag ≤ 32767 →
      (isCosmic flag = true ↔ (Nat.testBit flag 13 ∨ Nat.testBit flag 12))) ∧
    isCosmic 8192 = true ∧ isCosmic 4096 = true := by
  refine ⟨?_, by decide, by decide⟩
  intro flag _
  have h1 : (toBinary15 flag).getD 1 0 = flag / 2 ^ 13 % 2 := by
    simp [toBinary15, List.getD, List.get?_map, List.get?_range (by omega : 1 < 15)]
  have h2 : (toBinary15 flag).getD 2 0 = flag / 2 ^ 12 % 2 := by
    simp [toBinary15, List.getD, List.get?_map, List.get?_range (by omega : 2 < 15)]
  rw [isCosmic, h1, h2, Nat.testBit_to_div_mod, Nat.testBit_to_div_mod]
  simp [Bool.or_eq_true, beq_iff_eq, or_comm]

/-- Witness for C8 at the flag 8192. -/
theorem c8_is_cosmic_witness :
    (8192 : ℕ) ≤ 32767 ∧
    (isCosmic 8192 = true ↔ (Nat.testBit 8192 13 ∨ Nat.testBit 8192 12)) := by
  exact ⟨by decide, c8_is_cosmic.1 8192 (by decide)⟩

/-- The polynomial handed to `np.roots` by `make_nonlinear`
(tools.py lines 178-179), evaluated at a candidate z over ℂ:
coefficient vector [c4, c3, c2, c1 + 1, -frame[i][j]]. -/
def quarticVal (a1 a2 a3 a4 v : ℝ) (z : ℂ) : ℂ :=
  (a4 : ℂ) * z ^ 4 + (a3 : ℂ) * z ^ 3 + (a2 : ℂ) * z ^ 2 + ((a1 : ℂ) + 1) * z - (v : ℂ)

/-- The real parts of the roots found by
`np.real(np.roots([c4, c3, c2, c1 + 1, -v]))`: `np.roots` strips leading
zero coefficients, which leaves the root set of the evaluation map
unchanged. -/
def rootCandidates (a1 a2 a3 a4 v : ℝ) : Set ℝ :=
  {x | ∃ z : ℂ, quarticVal a1 a2 a3 a4 v z = 0 ∧ x = z.re}

/-- The per-pixel root selection of `make_nonlinear` (tools.py line 180):
`roots[np.argmin((roots - frame[i][j]) ** 2)]`, the candidate whose
squared distance to the input value is minimal. -/
def selectedRoot (a1 a2 a3 a4 v x : ℝ) : Prop :=
  x ∈ rootCandidates a1 a2 a3 a4 v ∧
  ∀ y ∈ rootCandidates a1 a2 a3 a4 v, (x - v) ^ 2 ≤ (y - v) ^ 2

/-- The per-pixel loop of `make_nonlinear` (tools.py lines 174-182) as a
relation between the input frame and the output frame: at every pixel the
output value is a selected root for the pixel coefficients and the pixel
value. -/
def makeNonlinearRel {n : ℕ} (a1 a2 a3 a4 frame out : Fin n → Fin n → ℝ) : Prop :=
  ∀ i j, selectedRoot (a1 i j) (a2 i j) (a3 i j) (a4 i j) (frame i j) (out i j)

theorem rootCandidates_zero (v : ℝ) : rootCandidates 0 0 0 0 v = {v} := by
  ext x
  simp only [rootCandidates, Set.mem_setOf_eq, Set.mem_singleton_iff]
  constructor
  · rintro ⟨z, hz, rfl⟩
    have hzv : z = (v : ℂ) := by
      simpa [quarticVal, sub_eq_zero] using hz
    rw [hzv, Complex.ofReal_re]
  · rintro rfl
    exact ⟨(x : ℂ), by simp [quarticVal], (Complex.ofReal_re x).symm⟩

theorem selectedRoot_zero (v x : ℝ) : selectedRoot 0 0 0 0 v x ↔ x = v := by
  constructor
  · intro hx
    have := hx.1
    rwa [rootCandidates_zero, Set.mem_singleton_iff] at this
  · rintro rfl
    refine ⟨by rw [rootCandidates_zero]; rfl, ?_⟩
    intro y hy
    rw [rootCandidates_zero, Set.mem_singleton_iff] at hy
    rw [hy]

/-- C3: with the identity coefficient set (c1 = c2 = c3 = c4 = 0 at every
pixel) the quartic degenerates to x − v, so the per-pixel correction of
`make_nonlinear` leaves every pixel value unchanged: the output frame
satisfies the correction relation exactly when it equals the input frame. -/
theorem c3_identity_correction :
    ∀ (n : ℕ) (frame out : Fin n → Fin n → ℝ),
      (makeNonlinearRel (fun _ _ => 0) (fun _ _ => 0) (fun _ _ => 0)
        (fun _ _ => 0) frame out ↔ out = frame) := by
  intro n frame out
  constructor
  · intro h
    funext i j
    exact (selectedRoot_zero (frame i j) (out i j)).mp (h i j)
  · rintro rfl
    intro i j
    exact (selectedRoot_zero (out i j) (out i j)).mpr rfl
